import Mathlib

/-!
Verification of the bead-pixel pixelation / grid-editing core.

This file gives a shallow embedding, in Lean 4, of the algorithmic core of
the repository:

* `src/utils/colorUtils.ts`  — RGB→Lab conversion, Delta-E, palette matching;
* `src/utils/imageProcessor.ts` — median-cut quantization, pixelation,
  flood fill, empty/resized grids;
* `src/utils/canvasRenderer.ts` — screen↔grid coordinate transform;
* `src/store/useStore.ts` — the zustand store: grid edits, undo/redo
  history, view (zoom/pan) state.

JavaScript numbers are modelled by exact arithmetic: integer-valued pixel
channels by `ℤ`, fractional arithmetic (averages, zoom, pan, coordinate
transforms) by `ℚ`, and the real-valued Lab color math (which uses
`Math.pow` with fractional exponents and `Math.sqrt`) by `ℝ`.  `Math.round`
is `⌊x + 1/2⌋`, which agrees with JavaScript on every finite input.
`ImageData.data`, a flat RGBA byte array, is modelled as a list of per-pixel
RGBA records; the source's index `(y*width+x)*4 + k` becomes a field read of
pixel `y*width+x`.
-/

/-- RGB color: three channels, `src/types/index.ts` `RGB`. -/
structure RGB where
  r : ℤ
  g : ℤ
  b : ℤ
deriving DecidableEq, Repr

/-- One RGBA sample of `ImageData.data` (four consecutive bytes in the
source's flat array). -/
structure RGBA where
  r : ℤ
  g : ℤ
  b : ℤ
  a : ℤ
deriving DecidableEq, Repr

/-- Lab color, `src/types/index.ts` `Lab`; the channels are JavaScript
floats, modelled as reals. -/
structure Lab where
  l : ℝ
  a : ℝ
  b : ℝ

/-- Bead palette entry, `src/types/index.ts` `BeadColor`. -/
structure BeadColor where
  id : String
  name : String
  code : String
  hex : String
  rgb : RGB
  lab : Option Lab

/-- Grid of cells, `src/types/index.ts` `PixelData = (string | null)[][]`:
outer dimension is `height` (rows), inner is `width`. -/
abbrev PixelData := List (List (Option String))

/-! ## ColorMath (`src/utils/colorUtils.ts`) -/

open scoped Classical in
/-- The source's `rgbToLab` from `colorUtils.ts`: sRGB → linear → XYZ (D65) → Lab.
Real-valued; `Math.pow` becomes `Real.rpow`. -/
noncomputable def rgbToLab (c : RGB) : Lab :=
  let r0 : ℝ := (c.r : ℝ) / 255
  let g0 : ℝ := (c.g : ℝ) / 255
  let b0 : ℝ := (c.b : ℝ) / 255
  let r1 : ℝ := if r0 > 0.04045 then ((r0 + 0.055) / 1.055) ^ (2.4 : ℝ) else r0 / 12.92
  let g1 : ℝ := if g0 > 0.04045 then ((g0 + 0.055) / 1.055) ^ (2.4 : ℝ) else g0 / 12.92
  let b1 : ℝ := if b0 > 0.04045 then ((b0 + 0.055) / 1.055) ^ (2.4 : ℝ) else b0 / 12.92
  let x : ℝ := (r1 * 0.4124564 + g1 * 0.3575761 + b1 * 0.1804375) / 0.95047
  let y : ℝ := r1 * 0.2126729 + g1 * 0.7151522 + b1 * 0.0721750
  let z : ℝ := (r1 * 0.0193339 + g1 * 0.1191920 + b1 * 0.9503041) / 1.08883
  let fx : ℝ := if x > 0.008856 then x ^ ((1 : ℝ) / 3) else 7.787 * x + 16 / 116
  let fy : ℝ := if y > 0.008856 then y ^ ((1 : ℝ) / 3) else 7.787 * y + 16 / 116
  let fz : ℝ := if z > 0.008856 then z ^ ((1 : ℝ) / 3) else 7.787 * z + 16 / 116
  { l := 116 * fy - 16, a := 500 * (fx - fy), b := 200 * (fy - fz) }

/-- The source's `deltaE` from `colorUtils.ts`: CIE76, Euclidean distance in Lab space. -/
noncomputable def deltaE (lab1 lab2 : Lab) : ℝ :=
  Real.sqrt ((lab1.l - lab2.l) * (lab1.l - lab2.l)
    + (lab1.a - lab2.a) * (lab1.a - lab2.a)
    + (lab1.b - lab2.b) * (lab1.b - lab2.b))

open scoped Classical in
/-- One step of the `for (const color of colors)` loop in
`findClosestBeadColor`.  The accumulator carries the current closest entry
and the current minimal distance; `none` is the initial
`minDistance = Infinity`, against which every finite distance compares
smaller, so the first iteration always updates. -/
noncomputable def findClosestStep (targetLab : Lab)
    (acc : BeadColor × Option ℝ) (color : BeadColor) : BeadColor × Option ℝ :=
  let colorLab := color.lab.getD (rgbToLab color.rgb)
  let distance := deltaE targetLab colorLab
  match acc.2 with
  | none => (color, some distance)
  | some m => if distance < m then (color, some distance) else acc

/-- The source's `findClosestBeadColor` from `colorUtils.ts`: nearest bead color by Lab
Delta-E; `null` (here `none`) exactly when the palette is empty. -/
noncomputable def findClosestBeadColor (rgb : RGB) (colors : List BeadColor) :
    Option BeadColor :=
  match colors with
  | [] => none
  | c0 :: _ =>
    let targetLab := rgbToLab rgb
    some (colors.foldl (findClosestStep targetLab) (c0, none)).1

/-- The source's `precomputeLabValues` from `colorUtils.ts`: fill in the cached `lab`
field (`color.lab || rgbToLab(color.rgb)`). -/
noncomputable def precomputeLabValues (colors : List BeadColor) : List BeadColor :=
  colors.map fun color => { color with lab := some (color.lab.getD (rgbToLab color.rgb)) }

/-! ## Quantizer (`src/utils/imageProcessor.ts`) -/

/-- The source's `Math.round`: round half toward positive infinity, as JavaScript does on
every finite input. -/
def jsRound (q : ℚ) : ℤ := ⌊q + 1 / 2⌋

/-- Quantizer-internal `ColorBox`: the sampled colors plus per-channel
bounds. -/
structure ColorBox where
  colors : List RGB
  rMin : ℤ
  rMax : ℤ
  gMin : ℤ
  gMax : ℤ
  bMin : ℤ
  bMax : ℤ
deriving DecidableEq, Repr

instance : Inhabited ColorBox := ⟨⟨[], 255, 0, 255, 0, 255, 0⟩⟩

/-- The source's `createColorBox` from `imageProcessor.ts`: fold the min/max bounds over
the colors, starting from `rMin = 255, rMax = 0` (etc.). -/
def createColorBox (colors : List RGB) : ColorBox :=
  colors.foldl
    (fun box color =>
      { box with
        rMin := min box.rMin color.r, rMax := max box.rMax color.r
        gMin := min box.gMin color.g, gMax := max box.gMax color.g
        bMin := min box.bMin color.b, bMax := max box.bMax color.b })
    { colors := colors, rMin := 255, rMax := 0, gMin := 255, gMax := 0
      bMin := 255, bMax := 0 }

/-- The axis-aligned bounding volume `(rMax-rMin)·(gMax-gMin)·(bMax-bMin)`
used to pick the box to split. -/
def boxVolume (box : ColorBox) : ℤ :=
  (box.rMax - box.rMin) * (box.gMax - box.gMin) * (box.bMax - box.bMin)

/-- Stable insertion of `a` into `l`: `a` is placed after every element
whose key does not exceed `a`'s, so elements with equal keys keep their
original relative order. -/
def stableInsert (key : RGB → ℤ) (a : RGB) : List RGB → List RGB
  | [] => [a]
  | b :: l => if key b ≤ key a then b :: stableInsert key a l else a :: b :: l

/-- Stable sort by key, processing elements left to right.  JavaScript's
`Array.prototype.sort` is required to be stable, and a stable sort with
respect to a total preorder has a unique output, so this structurally
recursive insertion sort computes exactly what the source's
`[...box.colors].sort((a, b) => a[channel] - b[channel])` computes. -/
def stableSortBy (key : RGB → ℤ) (l : List RGB) : List RGB :=
  l.foldl (fun acc a => stableInsert key a acc) []

/-- The source's `splitColorBox` from `imageProcessor.ts`: pick the channel with the
largest range (preference order r, g, b on ties), stable-sort by it, and
split at `Math.floor(length / 2)`. -/
def splitColorBox (box : ColorBox) : ColorBox × ColorBox :=
  let rRange := box.rMax - box.rMin
  let gRange := box.gMax - box.gMin
  let bRange := box.bMax - box.bMin
  let key : RGB → ℤ :=
    if rRange ≥ gRange ∧ rRange ≥ bRange then (·.r)
    else if gRange ≥ rRange ∧ gRange ≥ bRange then (·.g)
    else (·.b)
  let sorted := stableSortBy key box.colors
  let mid := sorted.length / 2
  (createColorBox (sorted.take mid), createColorBox (sorted.drop mid))

/-- The source's `getAverageColor` from `imageProcessor.ts`: per-channel arithmetic mean,
rounded.  The source divides by `box.colors.length`; a box is never empty
when this is called. -/
def getAverageColor (box : ColorBox) : RGB :=
  let rSum : ℤ := (box.colors.map (·.r)).sum
  let gSum : ℤ := (box.colors.map (·.g)).sum
  let bSum : ℤ := (box.colors.map (·.b)).sum
  let count : ℤ := box.colors.length
  { r := jsRound ((rSum : ℚ) / (count : ℚ))
    g := jsRound ((gSum : ℚ) / (count : ℚ))
    b := jsRound ((bSum : ℚ) / (count : ℚ)) }

/-- The pixel-extraction loop at the top of `medianCutQuantize`: walk the
RGBA samples, skipping every pixel with `alpha < 128`. -/
def extractColors (pixels : List RGBA) : List RGB :=
  pixels.filterMap fun p => if p.a < 128 then none else some ⟨p.r, p.g, p.b⟩

/-- The `maxIndex`/`maxVolume` scan inside `medianCutQuantize`'s while loop:
skip boxes with fewer than two colors, track the strictly largest volume
seen so far (both accumulators start at 0). -/
def findMaxBoxAux : List ColorBox → ℕ → ℕ → ℤ → ℕ × ℤ
  | [], _, maxIndex, maxVolume => (maxIndex, maxVolume)
  | box :: rest, i, maxIndex, maxVolume =>
    if box.colors.length < 2 then findMaxBoxAux rest (i + 1) maxIndex maxVolume
    else if boxVolume box > maxVolume then findMaxBoxAux rest (i + 1) i (boxVolume box)
    else findMaxBoxAux rest (i + 1) maxIndex maxVolume

/-- The scan over all boxes, from index 0. -/
def findMaxBox (boxes : List ColorBox) : ℕ × ℤ := findMaxBoxAux boxes 0 0 0

/-- The `while (boxes.length < colorCount)` loop of `medianCutQuantize`,
with explicit fuel.  Each iteration either stops (`maxVolume === 0`,
modelling `break`) or replaces one box by its two halves, growing the list
by one; starting from one box with `fuel = colorCount.toNat`, the fuel can
therefore never run out before the loop condition fails, so the fuelled
recursion computes exactly the source loop. -/
def quantLoop (colorCount : ℤ) : ℕ → List ColorBox → List ColorBox
  | 0, boxes => boxes
  | fuel + 1, boxes =>
    if (boxes.length : ℤ) < colorCount then
      let scan := findMaxBox boxes
      if scan.2 = 0 then boxes
      else
        let split := splitColorBox (boxes.getD scan.1 default)
        quantLoop colorCount fuel
          (boxes.take scan.1 ++ [split.1, split.2] ++ boxes.drop (scan.1 + 1))
    else boxes

/-- The source's `medianCutQuantize` from `imageProcessor.ts`: extract the opaque
samples, return solid white on empty input, otherwise run the median-cut
loop from a single box and average each final box. -/
def medianCutQuantize (pixels : List RGBA) (colorCount : ℤ) : List RGB :=
  let colors := extractColors pixels
  if colors.isEmpty then [⟨255, 255, 255⟩]
  else (quantLoop colorCount colorCount.toNat [createColorBox colors]).map getAverageColor

/-! ## Pixelizer (`src/utils/imageProcessor.ts`) -/

/-- One step of the `for (const color of palette)` loop in
`mapToNearestColor`: squared RGB Euclidean distance, with `none` as the
initial `minDist = Infinity`. -/
def mapToNearestStep (rgb : RGB) (acc : RGB × Option ℤ) (color : RGB) :
    RGB × Option ℤ :=
  let dist := (rgb.r - color.r) ^ 2 + (rgb.g - color.g) ^ 2 + (rgb.b - color.b) ^ 2
  match acc.2 with
  | none => (color, some dist)
  | some m => if dist < m then (color, some dist) else acc

/-- The source's `mapToNearestColor` from `imageProcessor.ts`: nearest entry of the
quantized palette by squared RGB distance.  `nearest` is initialized to
`palette[0]`; the quantizer never produces an empty palette, so the default
for the empty case is unreachable. -/
def mapToNearestColor (rgb : RGB) (palette : List RGB) : RGB :=
  (palette.foldl (mapToNearestStep rgb) (palette.headD ⟨0, 0, 0⟩, none)).1

/-- The source's `pixelateImage` from `imageProcessor.ts`, taking the already-sampled
`ImageData` (the `getImagePixelData` canvas call is browser-side,
nearest-neighbor down-sampling; for a source image already at the target
size it is the identity).  Per cell: transparent pixels become `none`;
opaque pixels are mapped to the quantized palette and then to the closest
bead color; `beadColor?.id || null` maps a missing match, or an empty id
string, to `null`. -/
noncomputable def pixelateImage (pixels : List RGBA) (width height : ℕ)
    (colorCount : ℤ) (beadColors : List BeadColor) : PixelData :=
  let palette := medianCutQuantize pixels colorCount
  let colorsWithLab := precomputeLabValues beadColors
  (List.range height).map fun y =>
    (List.range width).map fun x =>
      let p := pixels.getD (y * width + x) ⟨0, 0, 0, 0⟩
      if p.a < 128 then none
      else
        let quantizedColor := mapToNearestColor ⟨p.r, p.g, p.b⟩ palette
        match findClosestBeadColor quantizedColor colorsWithLab with
        | none => none
        | some bead => if bead.id = "" then none else some bead.id

/-- The source's `createEmptyPixelData` from `imageProcessor.ts`. -/
def createEmptyPixelData (width height : ℕ) : PixelData :=
  List.replicate height (List.replicate width (none : Option String))

/-! ## GridEditor: flood fill (`src/utils/imageProcessor.ts`) -/

/-- Read a grid cell.  The source reads `data[y][x]` only after checking
`0 ≤ x < width` and `0 ≤ y < height`; the guard here totalizes the read for
arbitrary integer coordinates (outside it the source would see
`undefined`, which is never produced as a stored cell value). -/
def cellGet (g : PixelData) (x y : ℤ) : Option String :=
  if 0 ≤ x ∧ 0 ≤ y then (g.getD y.toNat []).getD x.toNat none else none

/-- Write a grid cell (`newData[y][x] = v`); out-of-range writes do not
occur in the source paths modelled here. -/
def cellSet (g : PixelData) (x y : ℤ) (v : Option String) : PixelData :=
  g.set y.toNat ((g.getD y.toNat []) |>.set x.toNat v)

/-- The 4-connected adjacency used by `floodFill`'s
`queue.push([x+1,y],[x-1,y],[x,y+1],[x,y-1])`. -/
def adj4 (x y x' y' : ℤ) : Prop :=
  (x' = x + 1 ∧ y' = y) ∨ (x' = x - 1 ∧ y' = y) ∨
  (x' = x ∧ y' = y + 1) ∨ (x' = x ∧ y' = y - 1)

/-- The BFS `while (queue.length > 0)` loop of `floodFill`, with explicit
fuel.  Each iteration pops one queue entry; entries are pushed only when a
cell is recolored, each recoloring pushing four, and each in-bounds cell is
recolored at most once (the recolored cell no longer matches
`targetColorId`, and `targetColorId ≠ newColorId` on this path), so the
total number of iterations of the source loop is at most
`1 + 4·width·height` and the fuel used below never runs out. -/
def ffAux (width height : ℤ) (targetColorId : Option String) (newColorId : String) :
    ℕ → List (ℤ × ℤ) → Finset (ℤ × ℤ) → PixelData → PixelData
  | 0, _, _, d => d
  | _ + 1, [], _, d => d
  | fuel + 1, (x, y) :: rest, visited, d =>
    if (x, y) ∈ visited then ffAux width height targetColorId newColorId fuel rest visited d
    else if x < 0 ∨ x ≥ width ∨ y < 0 ∨ y ≥ height then
      ffAux width height targetColorId newColorId fuel rest visited d
    else if cellGet d x y ≠ targetColorId then
      ffAux width height targetColorId newColorId fuel rest visited d
    else
      ffAux width height targetColorId newColorId fuel
        (rest ++ [(x + 1, y), (x - 1, y), (x, y + 1), (x, y - 1)])
        (insert (x, y) visited) (cellSet d x y (some newColorId))

/-- The source's `floodFill` from `imageProcessor.ts`: out-of-range start or a start
cell already holding `newColorId` returns the input unchanged; otherwise
BFS-recolor the 4-connected region of cells matching the start cell's
original value. -/
def floodFill (g : PixelData) (startX startY : ℤ) (newColorId : String) : PixelData :=
  let height : ℤ := g.length
  let width : ℤ := (g.headD []).length
  if startX < 0 ∨ startX ≥ width ∨ startY < 0 ∨ startY ≥ height then g
  else
    let targetColorId := cellGet g startX startY
    if targetColorId = some newColorId then g
    else
      ffAux width height targetColorId newColorId
        (1 + 4 * width.toNat * height.toNat) [(startX, startY)] ∅ g

/-- The 4-connected region reachable from the start cell through cells
whose value equals the value at the start cell, over the original grid:
the set of cells a flood fill from `(sx, sy)` may touch. -/
inductive InFillRegion (g : PixelData) (sx sy : ℤ) : ℤ → ℤ → Prop
  | start : InFillRegion g sx sy sx sy
  | step (x y x' y' : ℤ) : InFillRegion g sx sy x y → adj4 x y x' y' →
      0 ≤ x' → x' < ((g.headD []).length : ℤ) → 0 ≤ y' → y' < (g.length : ℤ) →
      cellGet g x' y' = cellGet g sx sy →
      InFillRegion g sx sy x' y'

/-! ## ViewTransform (`src/utils/canvasRenderer.ts`) -/

/-- The fractional grid coordinates computed by `screenToPixel` before
flooring: undo the client-rect offset and backing-store scale, then invert
the renderer's center/pan/zoom transform. -/
def screenToPixelRaw (screenX screenY canvasW canvasH rectLeft rectTop rectW rectH : ℚ)
    (width height : ℕ) (cellSize zoom panX panY : ℚ) : ℚ × ℚ :=
  let canvasX := screenX - rectLeft
  let canvasY := screenY - rectTop
  let scaleX := canvasW / rectW
  let scaleY := canvasH / rectH
  let centerX := canvasW / 2
  let centerY := canvasH / 2
  let gridWidth := (width : ℚ) * cellSize
  let gridHeight := (height : ℚ) * cellSize
  (((canvasX * scaleX - centerX - panX) / zoom + gridWidth / 2) / cellSize,
   ((canvasY * scaleY - centerY - panY) / zoom + gridHeight / 2) / cellSize)

/-- The source's `screenToPixel` from `canvasRenderer.ts`: floor the fractional
coordinates and return the cell only when it lies inside
`[0,width) × [0,height)`. -/
def screenToPixel (screenX screenY canvasW canvasH rectLeft rectTop rectW rectH : ℚ)
    (pixelData : PixelData) (cellSize zoom panX panY : ℚ) : Option (ℤ × ℤ) :=
  let height := pixelData.length
  let width := (pixelData.headD []).length
  let xy := screenToPixelRaw screenX screenY canvasW canvasH rectLeft rectTop rectW rectH
    width height cellSize zoom panX panY
  let pixelX := ⌊xy.1⌋
  let pixelY := ⌊xy.2⌋
  if 0 ≤ pixelX ∧ pixelX < (width : ℤ) ∧ 0 ≤ pixelY ∧ pixelY < (height : ℤ) then
    some (pixelX, pixelY)
  else none

/-- The forward view transform applied by `renderPixelGrid` to the center
of cell `(i, j)`: the canvas context is translated to
`(centerX + panX, centerY + panY)`, scaled by `zoom`, translated by
`(-gridWidth/2, -gridHeight/2)`, and the cell center is drawn at grid-space
point `(i·cellSize + cellSize/2, j·cellSize + cellSize/2)`; the resulting
backing-store coordinate is mapped back to client coordinates through the
canvas bounding rect (`rect.left + u · rectW / canvasW`). -/
def cellCenterToScreen (canvasW canvasH rectLeft rectTop rectW rectH : ℚ)
    (width height : ℕ) (cellSize zoom panX panY : ℚ) (i j : ℕ) : ℚ × ℚ :=
  let centerX := canvasW / 2
  let centerY := canvasH / 2
  let gridWidth := (width : ℚ) * cellSize
  let gridHeight := (height : ℚ) * cellSize
  let bufX := centerX + panX + zoom * (((i : ℚ) * cellSize + cellSize / 2) - gridWidth / 2)
  let bufY := centerY + panY + zoom * (((j : ℚ) * cellSize + cellSize / 2) - gridHeight / 2)
  (rectLeft + bufX * rectW / canvasW, rectTop + bufY * rectH / canvasH)

/-! ## Store (`src/store/useStore.ts`) -/

/-- History entry (`HistoryItem` in `src/types/index.ts`): a grid snapshot.
The source also records `Date.now()`; that clock reading is external and
never inspected, so it is not modelled. -/
structure HistoryItem where
  pixelData : PixelData
deriving DecidableEq, Repr

/-- Editor/display mode. -/
inductive UIMode
  | editor
  | display
deriving DecidableEq, Repr

/-- Editing tool (`EditorTool` in `src/types/index.ts`). -/
inductive EditorTool
  | brush
  | bucket
  | eyedropper
  | move
deriving DecidableEq, Repr

/-- UI state (`UIState` in `src/types/index.ts`); `zoom`, `panX`, `panY`
are JavaScript numbers, modelled as rationals. -/
structure UIState where
  mode : UIMode
  currentTool : EditorTool
  selectedColorId : Option String
  highlightColorId : Option String
  zoom : ℚ
  panX : ℚ
  panY : ℚ
  showColorCode : Bool
  isFullscreen : Bool
  showColorStats : Bool
deriving DecidableEq, Repr

/-- Pixelation configuration (`PixelConfig` in `src/types/index.ts`). -/
structure PixelConfig where
  width : ℕ
  height : ℕ
  colorCount : ℤ
  brand : String
  lockAspectRatio : Bool
deriving DecidableEq, Repr

/-- The zustand store state (`StoreState` in `src/store/useStore.ts`). -/
structure Store where
  pixelData : PixelData
  config : PixelConfig
  originalImage : Option String
  ui : UIState
  history : List HistoryItem
  historyIndex : ℤ
deriving DecidableEq, Repr

/-- The source's `MAX_HISTORY` from `useStore.ts`. -/
def MAX_HISTORY : ℕ := 50

/-- The source's `initialUIState` from `useStore.ts`. -/
def initialUIState : UIState :=
  { mode := .editor, currentTool := .brush, selectedColorId := some "P01"
    highlightColorId := none, zoom := 1, panX := 0, panY := 0
    showColorCode := true, isFullscreen := false, showColorStats := true }

/-- The store's initial state.  `initialConfig` copies `defaultConfig` from
`src/data/beadColors.ts`, which is not among the provided sources, so the
initial state is stated for an arbitrary default configuration `cfg`. -/
def initialStore (cfg : PixelConfig) : Store :=
  { pixelData := createEmptyPixelData cfg.width cfg.height
    config := cfg, originalImage := none, ui := initialUIState
    history := [], historyIndex := -1 }

/-- The history update performed by `setPixelData` when `saveHistory` is
set: truncate everything beyond the cursor (`slice(0, historyIndex + 1)`),
append a snapshot of the current (pre-edit) grid, and evict the oldest
entry (`shift()`) if the capacity `MAX_HISTORY` is exceeded. -/
def pushedHistory (s : Store) : List HistoryItem :=
  let newHistory := s.history.take (s.historyIndex + 1).toNat ++ [⟨s.pixelData⟩]
  if newHistory.length > MAX_HISTORY then newHistory.drop 1 else newHistory

/-- The source's `setPixelData` from `useStore.ts`. -/
def Store.setPixelData (s : Store) (data : PixelData) (saveHistory : Bool := true) : Store :=
  if saveHistory then
    { s with pixelData := data, history := pushedHistory s
             historyIndex := (pushedHistory s).length - 1 }
  else { s with pixelData := data }

/-- The source's `setPixel` from `useStore.ts`: bounds-checked against the grid height
and the first row's width; a no-op (no history entry) when out of range or
when the cell already holds `colorId`; otherwise commit, via
`setPixelData`, a copy of the grid with the one cell replaced. -/
def Store.setPixel (s : Store) (x y : ℤ) (colorId : Option String) : Store :=
  if y < 0 ∨ y ≥ (s.pixelData.length : ℤ) ∨ x < 0 ∨
      x ≥ ((s.pixelData.headD []).length : ℤ) then s
  else if cellGet s.pixelData x y = colorId then s
  else
    s.setPixelData
      (s.pixelData.mapIdx fun rowIndex row =>
        if (rowIndex : ℤ) = y then row.set x.toNat colorId else row)

/-- The source's `fillArea` from `useStore.ts`: always routes the flood-fill result
through `setPixelData` (with history). -/
def Store.fillArea (s : Store) (x y : ℤ) (colorId : String) : Store :=
  s.setPixelData (floodFill s.pixelData x y colorId)

/-- The source's `setZoom` from `useStore.ts`: `Math.max(0.1, Math.min(10, zoom))`. -/
def Store.setZoom (s : Store) (zoom : ℚ) : Store :=
  { s with ui := { s.ui with zoom := max (1 / 10) (min 10 zoom) } }

/-- The source's `setPan` from `useStore.ts`. -/
def Store.setPan (s : Store) (x y : ℚ) : Store :=
  { s with ui := { s.ui with panX := x, panY := y } }

/-- The source's `undo` from `useStore.ts`: when the cursor is non-negative, restore the
snapshot at the cursor and retreat the cursor.  A cursor beyond the history
length never occurs in reachable states; the `getD` default covers it. -/
def Store.undo (s : Store) : Store :=
  if 0 ≤ s.historyIndex then
    { s with pixelData := (s.history.getD s.historyIndex.toNat ⟨[]⟩).pixelData
             historyIndex := s.historyIndex - 1 }
  else s

/-- The source's `redo` from `useStore.ts`: when the cursor is before the last entry,
advance the cursor, and only if yet another entry exists beyond the new
cursor restore that entry's snapshot (the source's `nextIndex + 1 <
state.history.length` guard). -/
def Store.redo (s : Store) : Store :=
  if s.historyIndex < (s.history.length : ℤ) - 1 then
    let nextIndex := s.historyIndex + 1
    if nextIndex + 1 < (s.history.length : ℤ) then
      { s with historyIndex := nextIndex
               pixelData := (s.history.getD (nextIndex + 1).toNat ⟨[]⟩).pixelData }
    else { s with historyIndex := nextIndex }
  else s

/-- The source's `setConfig` merges a partial configuration; the merge result is an
arbitrary new configuration. -/
def Store.setConfig (s : Store) (cfg : PixelConfig) : Store := { s with config := cfg }

/-- The source's `setOriginalImage` from `useStore.ts`. -/
def Store.setOriginalImage (s : Store) (img : Option String) : Store :=
  { s with originalImage := img }

/-- The source's `setMode` from `useStore.ts`. -/
def Store.setMode (s : Store) (m : UIMode) : Store :=
  { s with ui := { s.ui with mode := m } }

/-- The source's `setTool` from `useStore.ts`. -/
def Store.setTool (s : Store) (t : EditorTool) : Store :=
  { s with ui := { s.ui with currentTool := t } }

/-- The source's `setSelectedColor` from `useStore.ts`. -/
def Store.setSelectedColor (s : Store) (c : Option String) : Store :=
  { s with ui := { s.ui with selectedColorId := c } }

/-- The source's `setHighlightColor` from `useStore.ts`. -/
def Store.setHighlightColor (s : Store) (c : Option String) : Store :=
  { s with ui := { s.ui with highlightColorId := c } }

/-- The source's `setShowColorCode` from `useStore.ts`. -/
def Store.setShowColorCode (s : Store) (b : Bool) : Store :=
  { s with ui := { s.ui with showColorCode := b } }

/-- The source's `setFullscreen` from `useStore.ts`. -/
def Store.setFullscreen (s : Store) (b : Bool) : Store :=
  { s with ui := { s.ui with isFullscreen := b } }

/-- The source's `setShowColorStats` from `useStore.ts`. -/
def Store.setShowColorStats (s : Store) (b : Bool) : Store :=
  { s with ui := { s.ui with showColorStats := b } }

/-- The source's `resetProject` from `useStore.ts`: restore every field to the initial
state built from the default configuration. -/
def Store.resetProject (cfg : PixelConfig) (_s : Store) : Store := initialStore cfg

/-- The source's `loadProject` from `useStore.ts`: replace grid and configuration, clear
the history; the UI state is untouched. -/
def Store.loadProject (s : Store) (data : PixelData) (cfg : PixelConfig) : Store :=
  { s with pixelData := data, config := cfg, history := [], historyIndex := -1 }

/-- The store states reachable from the initial state (with default
configuration `cfg`) through the store's actions.  Every mutation of
`ui.zoom` anywhere in the sources goes through `setZoom` (wheel and pinch
handlers compute a multiplicative delta and call `setZoom`, the fit-to-view
logic calls `setZoom` with an absolute value) or through a whole-state
reset. -/
inductive Reachable (cfg : PixelConfig) : Store → Prop
  | init : Reachable cfg (initialStore cfg)
  | setPixelData (s : Store) (d : PixelData) (b : Bool) :
      Reachable cfg s → Reachable cfg (s.setPixelData d b)
  | setPixel (s : Store) (x y : ℤ) (c : Option String) :
      Reachable cfg s → Reachable cfg (s.setPixel x y c)
  | fillArea (s : Store) (x y : ℤ) (c : String) :
      Reachable cfg s → Reachable cfg (s.fillArea x y c)
  | setConfig (s : Store) (c : PixelConfig) :
      Reachable cfg s → Reachable cfg (s.setConfig c)
  | setOriginalImage (s : Store) (img : Option String) :
      Reachable cfg s → Reachable cfg (s.setOriginalImage img)
  | setMode (s : Store) (m : UIMode) : Reachable cfg s → Reachable cfg (s.setMode m)
  | setTool (s : Store) (t : EditorTool) : Reachable cfg s → Reachable cfg (s.setTool t)
  | setSelectedColor (s : Store) (c : Option String) :
      Reachable cfg s → Reachable cfg (s.setSelectedColor c)
  | setHighlightColor (s : Store) (c : Option String) :
      Reachable cfg s → Reachable cfg (s.setHighlightColor c)
  | setZoom (s : Store) (z : ℚ) : Reachable cfg s → Reachable cfg (s.setZoom z)
  | setPan (s : Store) (x y : ℚ) : Reachable cfg s → Reachable cfg (s.setPan x y)
  | setShowColorCode (s : Store) (b : Bool) :
      Reachable cfg s → Reachable cfg (s.setShowColorCode b)
  | setFullscreen (s : Store) (b : Bool) :
      Reachable cfg s → Reachable cfg (s.setFullscreen b)
  | setShowColorStats (s : Store) (b : Bool) :
      Reachable cfg s → Reachable cfg (s.setShowColorStats b)
  | undo (s : Store) : Reachable cfg s → Reachable cfg s.undo
  | redo (s : Store) : Reachable cfg s → Reachable cfg s.redo
  | resetProject (s : Store) : Reachable cfg s → Reachable cfg (Store.resetProject cfg s)
  | loadProject (s : Store) (d : PixelData) (c : PixelConfig) :
      Reachable cfg s → Reachable cfg (s.loadProject d c)

/-! ## Theorems -/


/-- Example configuration used to instantiate store states in concrete
scenarios. -/
def demoConfig : PixelConfig :=
  { width := 2, height := 2, colorCount := 2, brand := "perler", lockAspectRatio := true }

/-- A fresh editing session over the grid `g`. -/
def freshStore (g : PixelData) : Store :=
  { pixelData := g, config := demoConfig, originalImage := none
    ui := initialUIState, history := [], historyIndex := -1 }

/-- C9: every reachable store state has its zoom clamped to `[0.1, 10]`. -/
theorem reachable_zoom_clamped (cfg : PixelConfig) (s : Store)
    (h : Reachable cfg s) : 1 / 10 ≤ s.ui.zoom ∧ s.ui.zoom ≤ 10 := by
  induction h with
  | init => exact ⟨by norm_num [initialStore, initialUIState], by norm_num [initialStore, initialUIState]⟩
  | setPixelData s d b _ ih =>
      unfold Store.setPixelData; split <;> exact ih
  | setPixel s x y c _ ih =>
      unfold Store.setPixel Store.setPixelData; split
      · exact ih
      · split
        · exact ih
        · split <;> exact ih
  | fillArea s x y c _ ih =>
      unfold Store.fillArea Store.setPixelData; split <;> exact ih
  | setConfig s c _ ih => exact ih
  | setOriginalImage s img _ ih => exact ih
  | setMode s m _ ih => exact ih
  | setTool s t _ ih => exact ih
  | setSelectedColor s c _ ih => exact ih
  | setHighlightColor s c _ ih => exact ih
  | setZoom s z _ _ =>
      refine ⟨le_max_left _ _, max_le (by norm_num) (min_le_left _ _)⟩
  | setPan s x y _ ih => exact ih
  | setShowColorCode s b _ ih => exact ih
  | setFullscreen s b _ ih => exact ih
  | setShowColorStats s b _ ih => exact ih
  | undo s _ ih => unfold Store.undo; split <;> exact ih
  | redo s _ ih =>
      unfold Store.redo
      dsimp only
      split
      · split <;> exact ih
      · exact ih
  | resetProject s _ _ =>
      exact ⟨by norm_num [Store.resetProject, initialStore, initialUIState],
             by norm_num [Store.resetProject, initialStore, initialUIState]⟩
  | loadProject s d c _ ih => exact ih

/-- C9 witness: the invariant holds at the reachable initial state. -/
theorem reachable_zoom_clamped_witness :
    1 / 10 ≤ (initialStore demoConfig).ui.zoom ∧ (initialStore demoConfig).ui.zoom ≤ 10 :=
  reachable_zoom_clamped demoConfig _ (Reachable.init)

/-- C1: after one committed edit followed by `undo`, `redo` advances the
cursor but leaves the pre-edit grid in place — the grid produced by the
edit (`[[some "a"]]`) is not restored, because the history only ever
snapshots pre-edit states and the source's redo only restores a snapshot
when an entry exists beyond `cursor + 1`. -/
theorem redo_after_undo_loses_last_edit :
    ((((freshStore [[none]]).setPixel 0 0 (some "a")).undo).redo).pixelData = [[none]]
    ∧ (((freshStore [[none]]).setPixel 0 0 (some "a"))).pixelData = [[some "a"]]
    ∧ ([[none]] : PixelData) ≠ [[some "a"]] := by
  refine ⟨by decide, by decide, by decide⟩


/-- Rectangularity invariant of the Grid data model: every row has the
same length as the first row. -/
def rectGrid (g : PixelData) : Prop := ∀ row ∈ g, row.length = (g.headD []).length

instance (g : PixelData) : Decidable (rectGrid g) := by unfold rectGrid; infer_instance

lemma headD_eq_getD {α : Type} (l : List α) (d : α) : l.headD d = l.getD 0 d := by
  cases l <;> rfl

lemma set_self_of_getElem {α : Type} (l : List α) (n : ℕ) (h : n < l.length) :
    l.set n l[n] = l := by
  apply List.ext_getElem (by simp)
  intro i h1 h2
  rw [List.getElem_set]
  split
  · subst i; rfl
  · rfl

lemma setPixelData_pixelData (s : Store) (d : PixelData) (b : Bool) :
    (s.setPixelData d b).pixelData = d := by
  unfold Store.setPixelData; split <;> rfl

/-- Shape helper: a per-row edit that preserves row lengths preserves the
length of the first row. -/
lemma headD_length_mapIdx {f : ℕ → List (Option String) → List (Option String)}
    (hf : ∀ i row, (f i row).length = row.length) (g : PixelData) :
    ((g.mapIdx f).headD []).length = (g.headD []).length := by
  cases g with
  | nil => rfl
  | cons a l => rw [List.mapIdx_cons]; exact hf 0 a

/-- The committed-edit branch of `setPixel`. -/
lemma setPixel_else (s : Store) (x y : ℤ) (c : Option String)
    (hbnd : ¬(y < 0 ∨ y ≥ (s.pixelData.length : ℤ) ∨ x < 0 ∨
      x ≥ ((s.pixelData.headD []).length : ℤ)))
    (hne : ¬(cellGet s.pixelData x y = c)) :
    s.setPixel x y c = s.setPixelData
      (s.pixelData.mapIdx fun rowIndex row =>
        if (rowIndex : ℤ) = y then row.set x.toNat c else row) := by
  unfold Store.setPixel; rw [if_neg hbnd, if_neg hne]

/-- C7: writing a cell and then writing back its original value restores an
equal grid. -/
theorem setPixel_roundTrip (s : Store) (x y : ℤ) (v : Option String)
    (hrect : rectGrid s.pixelData)
    (hx : 0 ≤ x) (hxw : x < ((s.pixelData.headD []).length : ℤ))
    (hy : 0 ≤ y) (hyh : y < (s.pixelData.length : ℤ)) :
    ((s.setPixel x y v).setPixel x y (cellGet s.pixelData x y)).pixelData = s.pixelData := by
  have hbnd : ¬(y < 0 ∨ y ≥ (s.pixelData.length : ℤ) ∨ x < 0 ∨
      x ≥ ((s.pixelData.headD []).length : ℤ)) := by push_neg; exact ⟨hy, hyh, hx, hxw⟩
  by_cases hvo : cellGet s.pixelData x y = v
  · have h1 : s.setPixel x y v = s := by
      unfold Store.setPixel; rw [if_neg hbnd, if_pos hvo]
    rw [h1]
    unfold Store.setPixel; rw [if_neg hbnd, if_pos rfl]
  · -- the edit really changes the cell; editing back restores the grid
    have hyn : y.toNat < s.pixelData.length := by omega
    have hrowlen : s.pixelData[y.toNat].length = (s.pixelData.headD []).length :=
      hrect _ (List.getElem_mem hyn)
    have hxn : x.toNat < s.pixelData[y.toNat].length := by omega
    have horig : cellGet s.pixelData x y = s.pixelData[y.toNat][x.toNat] := by
      unfold cellGet
      rw [if_pos ⟨hx, hy⟩, List.getD_eq_getElem _ _ hyn, List.getD_eq_getElem _ _ hxn]
    set g' : PixelData := s.pixelData.mapIdx
      (fun rowIndex row => if (rowIndex : ℤ) = y then row.set x.toNat v else row) with hg'
    have hlen' : g'.length = s.pixelData.length := List.length_mapIdx
    have hrow' : ∀ i (h : i < g'.length) (hi2 : i < s.pixelData.length),
        g'[i] = if (i : ℤ) = y then (s.pixelData[i]).set x.toNat v
                else s.pixelData[i] := by
      intro i h hi2
      exact List.getElem_mapIdx
    have hW' : ((g'.headD []).length : ℤ) = ((s.pixelData.headD []).length : ℤ) := by
      rw [hg', headD_length_mapIdx]
      intro i row
      dsimp only
      split
      · rw [List.length_set]
      · rfl
    have h1 : s.setPixel x y v = s.setPixelData g' :=
      setPixel_else s x y v hbnd hvo
    have hpd1 : (s.setPixel x y v).pixelData = g' := by rw [h1, setPixelData_pixelData]
    have hbnd' : ¬(y < 0 ∨ y ≥ (((s.setPixel x y v).pixelData).length : ℤ) ∨ x < 0 ∨
        x ≥ ((((s.setPixel x y v).pixelData).headD []).length : ℤ)) := by
      rw [hpd1, hW']
      push_neg
      exact ⟨hy, by omega, hx, hxw⟩
    have hcell' : cellGet g' x y = v := by
      unfold cellGet
      rw [if_pos ⟨hx, hy⟩]
      have hyn' : y.toNat < g'.length := by omega
      rw [List.getD_eq_getElem _ _ hyn', hrow' _ hyn' (by omega), if_pos (by omega)]
      have hxn' : x.toNat < (s.pixelData[y.toNat].set x.toNat v).length := by
        rw [List.length_set]; omega
      rw [List.getD_eq_getElem _ _ hxn', List.getElem_set, if_pos rfl]
    have hvo' : ¬(cellGet (s.setPixel x y v).pixelData x y = cellGet s.pixelData x y) := by
      rw [hpd1, hcell']
      exact fun h => hvo h.symm
    rw [setPixel_else _ _ _ _ hbnd' hvo', setPixelData_pixelData, hpd1]
    apply List.ext_getElem
    · rw [List.length_mapIdx]; omega
    · intro i h1i h2i
      rw [List.getElem_mapIdx]
      by_cases hiy : (i : ℤ) = y
      · have hiyn : i = y.toNat := by omega
        subst hiyn
        rw [if_pos hiy, hrow' _ (by omega) (by omega), if_pos hiy, List.set_set, horig,
          set_self_of_getElem _ _ hxn]
      · rw [if_neg hiy, hrow' _ (by omega) (by omega), if_neg hiy]

lemma setPixelData_history (s : Store) (d : PixelData) :
    (s.setPixelData d).history = pushedHistory s := rfl

lemma setPixelData_historyIndex (s : Store) (d : PixelData) :
    (s.setPixelData d).historyIndex = ((pushedHistory s).length : ℤ) - 1 := rfl

lemma pushedHistory_getLast (s : Store) :
    (pushedHistory s).getLast? = some ⟨s.pixelData⟩ := by
  unfold pushedHistory
  dsimp only
  split
  · next hgt =>
      rw [List.getLast?_drop, if_neg ?hn, List.getLast?_append]
      · simp
      case hn =>
        simp only [List.length_append, List.length_take, List.length_singleton,
          MAX_HISTORY] at hgt ⊢
        omega
  · rw [List.getLast?_append]
    simp

/-- C10 (amended): a no-op `fillArea` leaves the grid unchanged but still
pushes a history snapshot of that unchanged grid and moves the cursor to
the new last index (advancing it except at capacity), whereas `setPixel`
skips history entirely in its no-op cases. -/
theorem fillArea_noop_pushes_history (s : Store) (x y : ℤ) (c : String)
    (hno : (x < 0 ∨ x ≥ ((s.pixelData.headD []).length : ℤ) ∨ y < 0 ∨
              y ≥ (s.pixelData.length : ℤ))
           ∨ cellGet s.pixelData x y = some c) :
    (s.fillArea x y c).pixelData = s.pixelData
    ∧ (s.fillArea x y c).history = pushedHistory s
    ∧ (s.fillArea x y c).historyIndex = ((pushedHistory s).length : ℤ) - 1
    ∧ (pushedHistory s).getLast? = some ⟨s.pixelData⟩
    ∧ (-1 ≤ s.historyIndex → s.historyIndex < (s.history.length : ℤ) →
        s.history.length < MAX_HISTORY →
        (s.fillArea x y c).historyIndex = s.historyIndex + 1)
    ∧ s.setPixel x y (some c) = s := by
  have hff : floodFill s.pixelData x y c = s.pixelData := by
    unfold floodFill
    dsimp only
    rcases hno with hob | hsame
    · rw [if_pos (by tauto)]
    · by_cases hb : x < 0 ∨ x ≥ ((s.pixelData.headD []).length : ℤ) ∨ y < 0 ∨
          y ≥ (s.pixelData.length : ℤ)
      · rw [if_pos hb]
      · rw [if_neg hb, if_pos hsame]
  have hfa : s.fillArea x y c = s.setPixelData s.pixelData := by
    unfold Store.fillArea
    rw [hff]
  have hsp : s.setPixel x y (some c) = s := by
    unfold Store.setPixel
    by_cases hb : y < 0 ∨ y ≥ (s.pixelData.length : ℤ) ∨ x < 0 ∨
        x ≥ ((s.pixelData.headD []).length : ℤ)
    · rw [if_pos hb]
    · rw [if_neg hb]
      have hsame : cellGet s.pixelData x y = some c := by tauto
      rw [if_pos hsame]
  refine ⟨by rw [hfa, setPixelData_pixelData], by rw [hfa]; exact setPixelData_history s _,
    by rw [hfa]; exact setPixelData_historyIndex s _, pushedHistory_getLast s, ?_, hsp⟩
  intro h1 h2 h3
  have hmax : MAX_HISTORY = 50 := rfl
  have hlen : (pushedHistory s).length = (s.historyIndex + 1).toNat + 1 := by
    unfold pushedHistory
    dsimp only
    rw [if_neg ?hc]
    · simp only [List.length_append, List.length_take, List.length_singleton]
      omega
    case hc =>
      simp only [List.length_append, List.length_take, List.length_singleton, MAX_HISTORY]
      omega
  rw [hfa, setPixelData_historyIndex, hlen]
  omega

/-- The store state used to exhibit the capacity corner of C10: a full
history (50 entries) with the cursor at the last index, as produced by 50
committed edits. -/
def capStore : Store :=
  { pixelData := [[none]], config := demoConfig, originalImage := none
    ui := initialUIState
    history := List.replicate 50 ⟨[[some "a"]]⟩, historyIndex := 49 }

/-- C10 counterexample: with a full history, a no-op `fillArea` (start
coordinate out of range) leaves the cursor where it was — it does not
advance, contradicting the claim as stated. -/
theorem fillArea_noop_at_capacity_cursor_fixed :
    (capStore.fillArea 5 0 "c").historyIndex = capStore.historyIndex
    ∧ capStore.historyIndex = 49
    ∧ (capStore.fillArea 5 0 "c").pixelData = capStore.pixelData := by
  refine ⟨by decide, by decide, by decide⟩

/-- C7 witness grid. -/
def c7Grid : PixelData := [[some "a", none], [none, some "b"]]

/-- C7 witness: the round trip at a concrete in-bounds cell of a concrete
rectangular grid. -/
theorem setPixel_roundTrip_witness :
    rectGrid (freshStore c7Grid).pixelData
    ∧ (0 : ℤ) ≤ 1 ∧ (1 : ℤ) < (((freshStore c7Grid).pixelData.headD []).length : ℤ)
    ∧ (0 : ℤ) ≤ 0 ∧ (0 : ℤ) < (((freshStore c7Grid).pixelData).length : ℤ)
    ∧ (((freshStore c7Grid).setPixel 1 0 (some "z")).setPixel 1 0
        (cellGet (freshStore c7Grid).pixelData 1 0)).pixelData = (freshStore c7Grid).pixelData :=
  ⟨by decide, by decide, by decide, by decide, by decide,
    setPixel_roundTrip (freshStore c7Grid) 1 0 (some "z") (by decide) (by decide) (by decide)
      (by decide) (by decide)⟩

/-- C10 witness: a concrete no-op fill (out-of-range start) on a fresh
store, satisfying the hypothesis of the amended theorem. -/
theorem fillArea_noop_pushes_history_witness :
    (((5 : ℤ) < 0 ∨ (5 : ℤ) ≥ (((freshStore [[none]]).pixelData.headD []).length : ℤ) ∨
        (0 : ℤ) < 0 ∨ (0 : ℤ) ≥ (((freshStore [[none]]).pixelData).length : ℤ))
      ∨ cellGet (freshStore [[none]]).pixelData 5 0 = some "c")
    ∧ ((freshStore [[none]]).fillArea 5 0 "c").pixelData = (freshStore [[none]]).pixelData :=
  ⟨by decide, (fillArea_noop_pushes_history (freshStore [[none]]) 5 0 "c" (by decide)).1⟩

/-- C4 (amended): the palette matcher reports "no match" (here `none`) if
and only if the palette is empty, for every input color; and `pixelateImage`
invoked with an empty bead palette silently returns the all-`none` grid
rather than surfacing a configuration error. -/
theorem findClosest_none_iff_and_empty_palette_grid :
    (∀ (rgb : RGB) (colors : List BeadColor),
        findClosestBeadColor rgb colors = none ↔ colors = [])
    ∧ ∀ (pixels : List RGBA) (width height : ℕ) (colorCount : ℤ),
        pixelateImage pixels width height colorCount [] =
          createEmptyPixelData width height := by
  constructor
  · intro rgb colors
    cases colors with
    | nil => simp [findClosestBeadColor]
    | cons c0 rest => simp [findClosestBeadColor]
  · intro pixels width height colorCount
    unfold pixelateImage precomputeLabValues createEmptyPixelData
    simp only [List.map_nil]
    have hcell : ∀ q : RGB, findClosestBeadColor q [] = none := fun q => rfl
    simp only [hcell, ite_self]
    simp [List.map_const']

/-- A single fully-opaque red pixel, used as a concrete 1×1 image. -/
def onePixelImage : List RGBA := [⟨255, 0, 0, 255⟩]

/-- A concrete one-entry bead palette. -/
def redOnlyBeads : List BeadColor :=
  [{ id := "red", name := "Red", code := "R01", hex := "#FF0000",
     rgb := ⟨255, 0, 0⟩, lab := none }]

/-- C4 counterexample: pixelizing a fully-opaque 1×1 image against an empty
bead palette silently yields the all-`none` grid — no configuration error
is surfaced, contradicting the claim. -/
theorem pixelate_empty_palette_silent_none :
    pixelateImage onePixelImage 1 1 1 [] = [[none]] := by rfl

/-- C3 (amended): `pixelateImage` performs no configuration validation and
never reports an invalid-configuration error: for every sampled image,
every target size, every `colorCount` (including values below 1) and every
palette it returns a well-formed `height × width` grid. -/
theorem pixelateImage_total_shape (pixels : List RGBA) (width height : ℕ)
    (colorCount : ℤ) (beadColors : List BeadColor) :
    (pixelateImage pixels width height colorCount beadColors).length = height
    ∧ ∀ row ∈ pixelateImage pixels width height colorCount beadColors,
        row.length = width := by
  constructor
  · unfold pixelateImage
    simp
  · intro row hrow
    unfold pixelateImage at hrow
    simp only [List.mem_map, List.mem_range] at hrow
    obtain ⟨y, hy, rfl⟩ := hrow
    simp

/-- C3 counterexample: with `colorCount = 0` — invalid per the claim, which
demands a failure — `pixelateImage` succeeds and returns a grid (the
quantizer's while loop never runs, leaving the single average color). -/
theorem pixelate_colorCount_zero_succeeds :
    pixelateImage onePixelImage 1 1 0 redOnlyBeads = [[some "red"]] := by rfl

/-- The 2×2 fully-opaque image of the concrete scenario: two red pixels on
the first row, two blue pixels on the second. -/
def c2Image : List RGBA :=
  [⟨255, 0, 0, 255⟩, ⟨255, 0, 0, 255⟩, ⟨0, 0, 255, 255⟩, ⟨0, 0, 255, 255⟩]

/-- The two-entry bead palette of the concrete scenario. -/
def c2Beads : List BeadColor :=
  [{ id := "red", name := "Red", code := "R01", hex := "#FF0000",
     rgb := ⟨255, 0, 0⟩, lab := none },
   { id := "blue", name := "Blue", code := "B01", hex := "#0000FF",
     rgb := ⟨0, 0, 255⟩, lab := none }]

/-- The common value of every cell in the scenario's output: the bead color
Lab-closest to the single quantized average `(128, 0, 128)`.  The green
range of the samples is zero, so the bounding volume of the initial color
box is zero and the median-cut loop stops before ever splitting; the one
resulting box averages to `(128, 0, 128)`, to which every opaque cell is
then mapped. -/
noncomputable def c2CellValue : Option String :=
  match findClosestBeadColor (mapToNearestColor ⟨255, 0, 0⟩ (medianCutQuantize c2Image 2))
      (precomputeLabValues c2Beads) with
  | none => none
  | some bead => if bead.id = "" then none else some bead.id

/-- C2 (amended): the scenario pixelizes to a uniform grid — all four cells
hold the same bead id (whichever of red/blue is Lab-closest to the single
quantized average color), not `[[red,red],[blue,blue]]`. -/
lemma c2_uniform_cells :
    pixelateImage c2Image 2 2 2 c2Beads =
      [[c2CellValue, c2CellValue], [c2CellValue, c2CellValue]] := by
  have h2 : quantLoop 2 (Int.toNat 2) [createColorBox (extractColors c2Image)]
      = [createColorBox (extractColors c2Image)] := by decide
  have hq : medianCutQuantize c2Image 2 = [⟨128, 0, 128⟩] := by
    unfold medianCutQuantize
    rw [if_neg (by decide : ¬((extractColors c2Image).isEmpty = true))]
    rw [h2]
    simp only [List.map_cons, List.map_nil]
    unfold getAverageColor
    dsimp only
    have hr : ((createColorBox (extractColors c2Image)).colors.map (·.r)).sum = (510 : ℤ) := by
      decide
    have hg : ((createColorBox (extractColors c2Image)).colors.map (·.g)).sum = (0 : ℤ) := by
      decide
    have hb : ((createColorBox (extractColors c2Image)).colors.map (·.b)).sum = (510 : ℤ) := by
      decide
    have hc : (createColorBox (extractColors c2Image)).colors.length = 4 := by decide
    rw [hr, hg, hb, hc]
    norm_num [jsRound, RGB.mk.injEq, List.cons.injEq]
  have hmap : ∀ p : RGB, mapToNearestColor p [⟨128, 0, 128⟩] = ⟨128, 0, 128⟩ := by
    intro p; rfl
  unfold pixelateImage c2CellValue
  rw [hq]
  simp only [List.range_succ, List.range_zero, List.nil_append, List.cons_append,
    List.map_cons, List.map_nil, hmap]
  norm_num [c2Image]

/-- C2 (amended claim, proved): the concrete scenario pixelizes to the
uniform grid `[[c, c], [c, c]]` where `c` is the bead color Lab-closest to
the single quantized average `(128, 0, 128)` — not to
`[[red, red], [blue, blue]]`. -/
theorem pixelate_scenario_uniform :
    pixelateImage c2Image 2 2 2 c2Beads =
      [[c2CellValue, c2CellValue], [c2CellValue, c2CellValue]] := c2_uniform_cells

/-- C2 counterexample: the scenario's output cannot be the claimed grid
`[[red, red], [blue, blue]]`, since all four cells of the actual output are
equal while the claimed grid holds two distinct ids. -/
theorem pixelate_scenario_not_claimed :
    pixelateImage c2Image 2 2 2 c2Beads ≠
      [[some "red", some "red"], [some "blue", some "blue"]] := by
  intro h
  rw [c2_uniform_cells] at h
  simp only [List.cons.injEq, and_true] at h
  obtain ⟨⟨h1, -⟩, h2, -⟩ := h
  rw [h1] at h2
  exact absurd (Option.some.inj h2) (by decide)

/-- The image behind the C5 counterexample: three black pixels and one
white pixel, all fully opaque — two distinct sample colors. -/
def c5Image : List RGBA :=
  [⟨0, 0, 0, 255⟩, ⟨0, 0, 0, 255⟩, ⟨0, 0, 0, 255⟩, ⟨255, 255, 255, 255⟩]

/-- C5 counterexample: with `k = 4` and the two-distinct-color sample list
above, the quantizer returns three representatives (the all-black half box
is split off and the remainder splits again), exceeding the number of
distinct input colors. -/
theorem medianCut_exceeds_distinct :
    1 ≤ (4 : ℤ)
    ∧ extractColors c5Image ≠ []
    ∧ (medianCutQuantize c5Image 4).length = 3
    ∧ (extractColors c5Image).dedup.length = 2 := by
  refine ⟨by decide, by decide, ?_, by decide⟩
  unfold medianCutQuantize
  rw [if_neg (by decide : ¬((extractColors c5Image).isEmpty = true))]
  rw [List.length_map]
  decide

/-- The index returned by the volume scan either is the initial candidate
or points into the scanned segment. -/
lemma findMaxBoxAux_idx (l : List ColorBox) : ∀ (i mi : ℕ) (mv : ℤ),
    (findMaxBoxAux l i mi mv).1 = mi ∨
      (i ≤ (findMaxBoxAux l i mi mv).1 ∧ (findMaxBoxAux l i mi mv).1 < i + l.length) := by
  induction l with
  | nil => intro i mi mv; exact Or.inl rfl
  | cons box rest ih =>
      intro i mi mv
      unfold findMaxBoxAux
      split
      · rcases ih (i + 1) mi mv with h | h
        · exact Or.inl h
        · exact Or.inr ⟨by omega, by simp only [List.length_cons]; omega⟩
      · split
        · rcases ih (i + 1) i (boxVolume box) with h | h
          · exact Or.inr ⟨by omega, by simp only [List.length_cons]; omega⟩
          · exact Or.inr ⟨by omega, by simp only [List.length_cons]; omega⟩
        · rcases ih (i + 1) mi mv with h | h
          · exact Or.inl h
          · exact Or.inr ⟨by omega, by simp only [List.length_cons]; omega⟩

/-- The scan's index stays inside a nonempty box list. -/
lemma findMaxBox_idx_lt (boxes : List ColorBox) (h : 1 ≤ boxes.length) :
    (findMaxBox boxes).1 < boxes.length := by
  unfold findMaxBox
  rcases findMaxBoxAux_idx boxes 0 0 0 with h1 | h1
  · omega
  · omega

/-- Box-count bounds of the median-cut loop: the list stays nonempty and
never exceeds `k`. -/
lemma quantLoop_length_bounds (k : ℤ) : ∀ (fuel : ℕ) (boxes : List ColorBox),
    1 ≤ boxes.length → (boxes.length : ℤ) ≤ k →
    1 ≤ (quantLoop k fuel boxes).length ∧ ((quantLoop k fuel boxes).length : ℤ) ≤ k := by
  intro fuel
  induction fuel with
  | zero => intro boxes h1 h2; exact ⟨h1, h2⟩
  | succ fuel ih =>
      intro boxes h1 h2
      unfold quantLoop
      dsimp only
      split
      · split
        · exact ⟨h1, h2⟩
        · have hidx : (findMaxBox boxes).1 < boxes.length := findMaxBox_idx_lt boxes h1
          have hlen : (boxes.take (findMaxBox boxes).1 ++
              [(splitColorBox (boxes.getD (findMaxBox boxes).1 default)).1,
               (splitColorBox (boxes.getD (findMaxBox boxes).1 default)).2] ++
              boxes.drop ((findMaxBox boxes).1 + 1)).length = boxes.length + 1 := by
            simp [List.length_take, List.length_drop]
            omega
          exact ih _ (by omega) (by omega)
      · exact ⟨h1, h2⟩

/-- C5 (amended): for every target count `k ≥ 1`, the quantizer returns
between 1 and `k` representatives on nonempty samples (though possibly
duplicates, so the count can exceed the number of distinct input colors),
and exactly one solid-white representative on empty samples. -/
theorem medianCut_bounds (pixels : List RGBA) (k : ℤ) (hk : 1 ≤ k) :
    (extractColors pixels = [] → medianCutQuantize pixels k = [⟨255, 255, 255⟩])
    ∧ (extractColors pixels ≠ [] →
        1 ≤ (medianCutQuantize pixels k).length
        ∧ ((medianCutQuantize pixels k).length : ℤ) ≤ k) := by
  constructor
  · intro h
    unfold medianCutQuantize
    rw [if_pos (by simp [h])]
  · intro h
    unfold medianCutQuantize
    rw [if_neg (by simp [h]), List.length_map]
    exact quantLoop_length_bounds k k.toNat [createColorBox (extractColors pixels)]
      (by simp) (by simpa using hk)

/-- C5 witness: the bounds at a concrete nonempty sample list with
`k = 2`. -/
theorem medianCut_bounds_witness :
    (1 : ℤ) ≤ 2
    ∧ ((extractColors c5Image = [] → medianCutQuantize c5Image 2 = [⟨255, 255, 255⟩])
      ∧ (extractColors c5Image ≠ [] →
          1 ≤ (medianCutQuantize c5Image 2).length
          ∧ ((medianCutQuantize c5Image 2).length : ℤ) ≤ 2)) :=
  ⟨by decide, medianCut_bounds c5Image 2 (by decide)⟩

lemma cellSet_length (d : PixelData) (x y : ℤ) (v : Option String) :
    (cellSet d x y v).length = d.length := List.length_set d y.toNat _

lemma getD_set {α : Type} (l : List α) (n i : ℕ) (a d : α) :
    (l.set n a).getD i d = if n = i ∧ n < l.length then a else l.getD i d := by
  by_cases hni : n = i
  · subst hni
    by_cases hlt : n < l.length
    · rw [List.getD_eq_getElem?_getD, List.getElem?_set, if_pos rfl, if_pos hlt,
        if_pos ⟨rfl, hlt⟩]
      rfl
    · rw [List.getD_eq_getElem?_getD, List.getElem?_set, if_pos rfl, if_neg hlt,
        if_neg (by tauto), List.getD_eq_getElem?_getD, List.getElem?_eq_none (by omega)]
  · rw [List.getD_eq_getElem?_getD, List.getElem?_set_ne hni, if_neg (by tauto),
      List.getD_eq_getElem?_getD]

lemma cellSet_row_length (d : PixelData) (x y : ℤ) (v : Option String) (i : ℕ) :
    ((cellSet d x y v).getD i []).length = (d.getD i []).length := by
  unfold cellSet
  rw [getD_set]
  split
  · next hc => rw [← hc.1, List.length_set]
  · rfl

lemma cellGet_cellSet_ne (d : PixelData) (x y x' y' : ℤ) (v : Option String)
    (hx0 : 0 ≤ x) (hy0 : 0 ≤ y) (hne : ¬(x' = x ∧ y' = y)) :
    cellGet (cellSet d x y v) x' y' = cellGet d x' y' := by
  unfold cellGet cellSet
  split
  · next hpos =>
      rw [getD_set]
      split
      · next hc =>
          have hyy : y' = y := by omega
          have hxx : ¬(x'.toNat = x.toNat ∧ x.toNat < (d.getD y.toNat []).length) := by
            have : x' ≠ x := fun he => hne ⟨he, hyy⟩
            omega
          rw [getD_set, if_neg (by tauto), ← hc.1]
      · rfl
  · rfl

/-- Frame invariant of the flood-fill BFS loop: as long as every queued
cell is the start cell or a neighbor of a cell already known to lie in the
fill region, and every cell on which the working grid differs from the
original lies in the region, the loop never changes a cell outside the
region — for any amount of fuel. -/
lemma ffAux_frame (g0 : PixelData) (sx sy : ℤ) (new : String)
    (hsx : 0 ≤ sx) (hsxW : sx < ((g0.headD []).length : ℤ))
    (hsy : 0 ≤ sy) (hsyH : sy < ((g0.length : ℕ) : ℤ)) :
    ∀ (fuel : ℕ) (queue : List (ℤ × ℤ)) (visited : Finset (ℤ × ℤ)) (d : PixelData),
    (∀ p ∈ queue, p = (sx, sy) ∨ ∃ a b, InFillRegion g0 sx sy a b ∧ adj4 a b p.1 p.2) →
    (∀ x y, cellGet d x y ≠ cellGet g0 x y → InFillRegion g0 sx sy x y) →
    ∀ x y, ¬ InFillRegion g0 sx sy x y →
      cellGet (ffAux ((g0.headD []).length : ℤ) ((g0.length : ℕ) : ℤ) (cellGet g0 sx sy) new
        fuel queue visited d) x y = cellGet g0 x y := by
  intro fuel
  induction fuel with
  | zero =>
      intro queue visited d hQ hD x y hxy
      by_contra hne
      exact hxy (hD x y hne)
  | succ fuel ih =>
      intro queue visited d hQ hD x y hxy
      match queue with
      | [] =>
          by_contra hne
          exact hxy (hD x y hne)
      | (x₀, y₀) :: rest =>
          unfold ffAux
          by_cases h1 : (x₀, y₀) ∈ visited
          · rw [if_pos h1]
            exact ih rest visited d (fun p hp => hQ p (List.mem_cons_of_mem _ hp)) hD x y hxy
          · rw [if_neg h1]
            by_cases h2 : x₀ < 0 ∨ x₀ ≥ ((g0.headD []).length : ℤ) ∨ y₀ < 0 ∨
                y₀ ≥ ((g0.length : ℕ) : ℤ)
            · rw [if_pos h2]
              exact ih rest visited d (fun p hp => hQ p (List.mem_cons_of_mem _ hp)) hD x y hxy
            · rw [if_neg h2]
              by_cases h3 : cellGet d x₀ y₀ ≠ cellGet g0 sx sy
              · rw [if_pos h3]
                exact ih rest visited d (fun p hp => hQ p (List.mem_cons_of_mem _ hp)) hD x y hxy
              · rw [if_neg h3]
                push_neg at h2 h3
                obtain ⟨hx₀0, hx₀W, hy₀0, hy₀H⟩ := h2
                have hreg : InFillRegion g0 sx sy x₀ y₀ := by
                  rcases hQ (x₀, y₀) (List.mem_cons_self _ _) with heq | ⟨a, b, hab, hadj⟩
                  · obtain ⟨h1', h2'⟩ := Prod.mk.injEq .. ▸ heq
                    subst h1'; subst h2'
                    exact InFillRegion.start
                  · by_cases hchg : cellGet d x₀ y₀ = cellGet g0 x₀ y₀
                    · exact InFillRegion.step a b x₀ y₀ hab hadj hx₀0 hx₀W hy₀0 hy₀H
                        (by rw [← hchg, h3])
                    · exact hD x₀ y₀ hchg
                apply ih _ _ _ ?_ ?_ x y hxy
                · intro p hp
                  rcases List.mem_append.mp hp with hp | hp
                  · exact hQ p (List.mem_cons_of_mem _ hp)
                  · refine Or.inr ⟨x₀, y₀, hreg, ?_⟩
                    unfold adj4
                    simp only [List.mem_cons, List.not_mem_nil, or_false] at hp
                    rcases hp with rfl | rfl | rfl | rfl
                    · exact Or.inl ⟨rfl, rfl⟩
                    · exact Or.inr (Or.inl ⟨rfl, rfl⟩)
                    · exact Or.inr (Or.inr (Or.inl ⟨rfl, rfl⟩))
                    · exact Or.inr (Or.inr (Or.inr ⟨rfl, rfl⟩))
                · intro a b hab
                  by_cases hab0 : a = x₀ ∧ b = y₀
                  · obtain ⟨rfl, rfl⟩ := hab0
                    exact hreg
                  · rw [cellGet_cellSet_ne d x₀ y₀ a b _ hx₀0 hy₀0 hab0] at hab
                    exact hD a b hab

/-- C6: `floodFill` never modifies a cell outside the 4-connected
same-original-value region reachable from the start cell. -/
theorem floodFill_frame (g : PixelData) (sx sy : ℤ) (c : String)
    (hrect : rectGrid g) (x y : ℤ) (hxy : ¬ InFillRegion g sx sy x y) :
    cellGet (floodFill g sx sy c) x y = cellGet g x y := by
  unfold floodFill
  dsimp only
  split
  · rfl
  · split
    · rfl
    · next hob htar =>
        push_neg at hob
        obtain ⟨hsx, hsxW, hsy, hsyH⟩ := hob
        exact ffAux_frame g sx sy c hsx hsxW hsy hsyH _ _ _ _
          (fun p hp => by
            simp only [List.mem_singleton] at hp
            exact Or.inl hp)
          (fun a b hab => absurd rfl hab) x y hxy

/-- The grid used for the C6 witness: two cells of different colors. -/
def c6Grid : PixelData := [[some "a", some "b"]]

lemma c6_not_in_region : ¬ InFillRegion c6Grid 0 0 1 0 := by
  intro h
  cases h with
  | step a b x' y' hr hadj hx' hxW hy' hyH hval =>
      exact absurd hval (by decide)

/-- C6 witness: flood-filling from cell `(0,0)` of `[[a, b]]` leaves the
differently-colored neighbor `(1,0)`, which is outside the fill region,
unchanged. -/
theorem floodFill_frame_witness :
    rectGrid c6Grid ∧ ¬ InFillRegion c6Grid 0 0 1 0
    ∧ cellGet (floodFill c6Grid 0 0 "c") 1 0 = cellGet c6Grid 1 0 :=
  ⟨by decide, c6_not_in_region,
    floodFill_frame c6Grid 0 0 "c" (by decide) 1 0 c6_not_in_region⟩

/-- C8: the inverse view transform recovers the cell indices from the
forward-transformed cell center, and it reports "no cell" exactly when the
floored inverse coordinates fall outside the grid. -/
theorem screenToPixel_roundTrip (g : PixelData)
    (canvasW canvasH rectLeft rectTop rectW rectH cellSize zoom panX panY : ℚ)
    (i j : ℕ) (sx sy : ℚ)
    (hz1 : 1 / 10 ≤ zoom) (hz2 : zoom ≤ 10)
    (hcs : 0 < cellSize) (hcw : 0 < canvasW) (hch : 0 < canvasH)
    (hrw : 0 < rectW) (hrh : 0 < rectH)
    (hi : i < (g.headD []).length) (hj : j < g.length) :
    screenToPixel
        (cellCenterToScreen canvasW canvasH rectLeft rectTop rectW rectH
          (g.headD []).length g.length cellSize zoom panX panY i j).1
        (cellCenterToScreen canvasW canvasH rectLeft rectTop rectW rectH
          (g.headD []).length g.length cellSize zoom panX panY i j).2
        canvasW canvasH rectLeft rectTop rectW rectH g cellSize zoom panX panY
      = some ((i : ℤ), (j : ℤ))
    ∧ (screenToPixel sx sy canvasW canvasH rectLeft rectTop rectW rectH g
          cellSize zoom panX panY = none
        ↔ ¬(0 ≤ ⌊(screenToPixelRaw sx sy canvasW canvasH rectLeft rectTop rectW rectH
                (g.headD []).length g.length cellSize zoom panX panY).1⌋
          ∧ ⌊(screenToPixelRaw sx sy canvasW canvasH rectLeft rectTop rectW rectH
                (g.headD []).length g.length cellSize zoom panX panY).1⌋
              < (((g.headD []).length : ℕ) : ℤ)
          ∧ 0 ≤ ⌊(screenToPixelRaw sx sy canvasW canvasH rectLeft rectTop rectW rectH
                (g.headD []).length g.length cellSize zoom panX panY).2⌋
          ∧ ⌊(screenToPixelRaw sx sy canvasW canvasH rectLeft rectTop rectW rectH
                (g.headD []).length g.length cellSize zoom panX panY).2⌋
              < ((g.length : ℕ) : ℤ))) := by
  have hzoom : zoom ≠ 0 := by positivity
  have hcs' : cellSize ≠ 0 := ne_of_gt hcs
  have hcw' : canvasW ≠ 0 := ne_of_gt hcw
  have hch' : canvasH ≠ 0 := ne_of_gt hch
  have hrw' : rectW ≠ 0 := ne_of_gt hrw
  have hrh' : rectH ≠ 0 := ne_of_gt hrh
  constructor
  · have hraw : screenToPixelRaw
        (cellCenterToScreen canvasW canvasH rectLeft rectTop rectW rectH
          (g.headD []).length g.length cellSize zoom panX panY i j).1
        (cellCenterToScreen canvasW canvasH rectLeft rectTop rectW rectH
          (g.headD []).length g.length cellSize zoom panX panY i j).2
        canvasW canvasH rectLeft rectTop rectW rectH
        (g.headD []).length g.length cellSize zoom panX panY
        = ((i : ℚ) + 1 / 2, (j : ℚ) + 1 / 2) := by
      unfold screenToPixelRaw cellCenterToScreen
      dsimp only
      rw [Prod.mk.injEq]
      constructor
      · field_simp
        ring
      · field_simp
        ring
    have hfx : ⌊((i : ℚ) + 1 / 2)⌋ = (i : ℤ) := by
      rw [show ((i : ℚ) + 1 / 2) = 1 / 2 + ((i : ℤ) : ℚ) by push_cast; ring,
        Int.floor_add_int]
      norm_num
    have hfy : ⌊((j : ℚ) + 1 / 2)⌋ = (j : ℤ) := by
      rw [show ((j : ℚ) + 1 / 2) = 1 / 2 + ((j : ℤ) : ℚ) by push_cast; ring,
        Int.floor_add_int]
      norm_num
    unfold screenToPixel
    dsimp only
    rw [hraw]
    dsimp only
    rw [hfx, hfy, if_pos ⟨by omega, by exact_mod_cast hi, by omega, by exact_mod_cast hj⟩]
  · unfold screenToPixel
    dsimp only
    split
    · next hcond => simp only [reduceCtorEq, false_iff, not_not]; exact hcond
    · next hcond => simp only [true_iff]; exact hcond

/-- C8 witness: the round trip at a concrete cell, zoom, pan and canvas
geometry. -/
theorem screenToPixel_roundTrip_witness :
    (1 / 10 : ℚ) ≤ 1 ∧ (1 : ℚ) ≤ 10 ∧ (0 : ℚ) < 20 ∧ (0 : ℚ) < 100 ∧ (0 : ℚ) < 80
    ∧ (0 : ℚ) < 50 ∧ (0 : ℚ) < 40 ∧ 1 < (c6Grid.headD []).length ∧ 0 < c6Grid.length
    ∧ screenToPixel
        (cellCenterToScreen 100 80 3 4 50 40 (c6Grid.headD []).length c6Grid.length
          20 1 7 (-5) 1 0).1
        (cellCenterToScreen 100 80 3 4 50 40 (c6Grid.headD []).length c6Grid.length
          20 1 7 (-5) 1 0).2
        100 80 3 4 50 40 c6Grid 20 1 7 (-5) = some (1, 0) :=
  ⟨by norm_num, by norm_num, by norm_num, by norm_num, by norm_num, by norm_num,
    by norm_num, by decide, by decide,
    (screenToPixel_roundTrip c6Grid 100 80 3 4 50 40 20 1 7 (-5) 1 0 0 0
      (by norm_num) (by norm_num) (by norm_num) (by norm_num) (by norm_num)
      (by norm_num) (by norm_num) (by decide) (by decide)).1⟩
